import Mathlib

/-!
Verification of the data-derivation and filter pipeline of the
Segovia property-tax dashboard (src/streamlit_app.py).

The script is embedded shallowly:

* One spreadsheet row of the sheet MATRIZ is a `RawRow`; a missing cell
  (pandas NaN) is `none`.  Monetary amounts, areas and tariffs are modelled
  as exact rationals, integer codes as integers.
* The whole sheet is a `RawTable`; the flags `hasNO` and `hasDIFERENCIA`
  record whether the optional columns NO and DIFERENCIA EN EL VALOR exist,
  matching the membership tests on `df.columns` in the script.
* `load_data` embeds the function of the same name: it drops the excluded
  rows, computes the derived columns, and returns `none` exactly when the
  embedded `pd.cut` validation (monotone bin edges, label count) would make
  pandas raise a ValueError; otherwise it returns the derived rows.
* `df_filt` embeds the sidebar filter block (five successive boolean-mask
  filters).  A pandas comparison or `isin` against a NaN cell is false, so
  each predicate maps `none` to `false`.
-/

namespace TabSeg

/-- One row of the MATRIZ sheet.  A `none` field is a missing (NaN) cell.
Column names with spaces keep their words joined by underscores. -/
structure RawRow where
  NO : Option String
  clase : Option Int
  ESTRATO : Option Int
  DESTINACION : Option String
  avaluo2024 : Option ℚ
  area_const : Option ℚ
  tarifa : Option ℚ
  TARIFA_PROPUESTA : Option ℚ
  VLR_IPU_2025 : Option ℚ
  IPU_LEY_44 : Option ℚ
  DIFERENCIA_EN_EL_VALOR : Option ℚ
deriving DecidableEq

/-- The source table: the rows of the sheet plus the schema facts the script
branches on, namely whether the optional columns NO and
DIFERENCIA EN EL VALOR are present. -/
structure RawTable where
  hasNO : Bool
  hasDIFERENCIA : Bool
  rows : List RawRow
deriving DecidableEq

/-- A derived row: the original cells plus the columns `load_data` adds. -/
structure Row where
  raw : RawRow
  zona : String
  estrato_cat : String
  rango_avaluo_2024 : Option String
  rango_area_const : Option String
  cambio_tarifa : Option ℚ
  situacion_tarifa : String
  situacion_ipu : String
deriving DecidableEq

/-- Embeds line 94: `df["clase"].map({1: "URBANO", 2: "RURAL"}).fillna("SIN CLASE")`.
The dictionary lookup tests the cell against the keys 1 and 2; a missing cell
or an unmapped value becomes NaN and `fillna` turns it into SIN CLASE. -/
def zonaOf (clase : Option Int) : String :=
  match clase with
  | some c => if c = 1 then "URBANO" else if c = 2 then "RURAL" else "SIN CLASE"
  | none => "SIN CLASE"

/-- Embeds lines 97 and 98: `df["ESTRATO"].fillna(0).astype(int).astype(str)`
followed by `.replace({"0": "SIN ESTRATO"})`.  The replace step compares the
string form of the cell with the literal string zero. -/
def estratoCatOf (e : Option Int) : String :=
  let s := toString (e.getD 0)
  if s = "0" then "SIN ESTRATO" else s

/-- Sorting step used by the quantile computation (pandas sorts the
non-missing values of the series internally). -/
def sortQ (l : List ℚ) : List ℚ :=
  List.insertionSort (fun a b => a ≤ b) l

/-- Linear-interpolation quantile of a sorted list of values, the
interpolation rule of `Series.quantile`: at fraction `q` the position is
`q * (n - 1)`; with `f` its floor and `g` the fractional part the result is
`v f + g * (v (f+1) - v f)`, the last index being clamped.  An empty list
(all cells missing) yields `none`, as the script never takes a quantile in
that case. -/
def quantile (s : List ℚ) (q : ℚ) : Option ℚ :=
  if s.isEmpty then none
  else
    let n : ℕ := s.length
    let pos : ℚ := q * ((n : ℚ) - 1)
    let f : ℕ := (⌊pos⌋).toNat
    let g : ℚ := pos - (f : ℚ)
    let a : ℚ := s.getD f 0
    let b : ℚ := s.getD (f + 1) a
    some (a + g * (b - a))

/-- The quantile fractions of line 102. -/
def qpoints : List ℚ := [0, 0.2, 0.4, 0.6, 0.8, 1]

/-- Removes consecutive duplicates of a list. -/
def dedupAdj : List ℚ → List ℚ
  | [] => []
  | [x] => [x]
  | x :: y :: r => if x = y then dedupAdj (y :: r) else x :: dedupAdj (y :: r)

/-- Embeds `np.unique` of line 104: the sorted distinct values. -/
def npUnique (l : List ℚ) : List ℚ := dedupAdj (sortQ l)

/-- Round half to even, the rounding of a Python `.0f` format specifier. -/
def roundHalfEven (x : ℚ) : Int :=
  let f := ⌊x⌋
  let r := x - (f : ℚ)
  if r < 1/2 then f
  else if 1/2 < r then f + 1
  else if f % 2 = 0 then f else f + 1

/-- Groups a reversed digit list in blocks of three, inserting the dot that
line 108 obtains by formatting with a comma separator and then replacing
commas with dots. -/
def group3 : List Char → List Char
  | a :: b :: c :: d :: rest => a :: b :: c :: '.' :: group3 (d :: rest)
  | l => l

/-- Embeds the Python format of line 108 for one edge: the value rounded to
zero decimals with a thousands separator, commas replaced by dots. -/
def fmtMoney (x : ℚ) : String :=
  let n := roundHalfEven x
  let sign := if n < 0 then "-" else ""
  let ds := (Nat.repr n.natAbs).data
  sign ++ String.mk (group3 ds.reverse).reverse

/-- Embeds the label loop of lines 105 to 109: one label for every pair of
adjacent edges. -/
def mkLabels (qs : List ℚ) : List String :=
  (List.range (qs.length - 1)).map fun i =>
    "$" ++ fmtMoney (qs.getD i 0) ++ " - $" ++ fmtMoney (qs.getD (i + 1) 0)

/-- Embeds the bin search of `pd.cut` with `right=True` and
`include_lowest=True` on a strictly increasing edge list: `searchsorted`
with side left gives the count of edges below the value, a value equal to
the first edge is forced into the first band, and an index of zero or of
the number of edges is masked to NaN.  The result is the index of the band,
so a value equal to an interior edge falls in the lower-adjacent band. -/
def cutIdx (edges : List ℚ) (v : ℚ) : Option ℕ :=
  let ids0 := edges.countP (fun e => decide (e < v))
  let ids := if edges.head? = some v then 1 else ids0
  if ids = 0 ∨ ids = edges.length then none else some (ids - 1)

/-- Embeds lines 120 to 133: `pd.cut` of `area_const` over the fixed edges
0, 35, 70, 120 and infinity with `include_lowest=True`.  A missing area or
an area below the first edge is NaN; the last band is unbounded above. -/
def rangoAreaOf (area : Option ℚ) : Option String :=
  match area with
  | none => none
  | some v =>
    if v < 0 then none
    else if v ≤ 35 then some ("0 - 35 m²")
    else if v ≤ 70 then some ("35 - 70 m²")
    else if v ≤ 120 then some ("70 - 120 m²")
    else some ("Más de 120 m²")

/-- Embeds `np.select` over the three sign conditions of a column, as used
at lines 137 to 145 and 150 to 158: the first true condition wins and a
missing cell satisfies none of them, giving the default. -/
def selectSign (x : Option ℚ) (neg eq pos dflt : String) : String :=
  match x with
  | none => dflt
  | some v => if v < 0 then neg else if v = 0 then eq else pos

/-- Embeds lines 88 to 91: when the column NO exists, keep the rows whose
NO cell differs from the literal string NO (a missing cell differs). -/
def keptRows (t : RawTable) : List RawRow :=
  if t.hasNO then t.rows.filter (fun r => !(r.NO == some ("NO"))) else t.rows

/-- The non-missing valuations of the kept rows, the series whose quantiles
line 102 takes. -/
def avaluoValues (t : RawTable) : List ℚ :=
  (keptRows t).filterMap (fun r => r.avaluo2024)

/-- Embeds the guard of line 101: `df["avaluo2024"].notna().sum() > 0`. -/
def hasAvaluo (t : RawTable) : Bool := !(avaluoValues t).isEmpty

/-- Embeds lines 102 to 104: the six quantiles of the valuation series,
deduplicated and sorted by `np.unique`. -/
def avaluoEdges (t : RawTable) : List ℚ :=
  npUnique (qpoints.filterMap (quantile (sortQ (avaluoValues t))))

/-- The labels built from the deduplicated edges at lines 105 to 109. -/
def avaluoLabels (t : RawTable) : List String := mkLabels (avaluoEdges t)

/-- The derived columns of one kept row, given the dataset-wide quantile
edges and labels and the two schema flags. -/
def deriveRow (edges : List ℚ) (labels : List String) (hasAval hasDif : Bool)
    (r : RawRow) : Row :=
  { raw := r
    zona := zonaOf r.clase
    estrato_cat := estratoCatOf r.ESTRATO
    rango_avaluo_2024 :=
      if hasAval then
        r.avaluo2024.bind (fun v => (cutIdx edges v).bind (fun i => labels[i]?))
      else some ("SIN AVALUO")
    rango_area_const := rangoAreaOf r.area_const
    cambio_tarifa :=
      match r.TARIFA_PROPUESTA, r.tarifa with
      | some p, some tf => some (p - tf)
      | _, _ => none
    situacion_tarifa :=
      selectSign
        (match r.TARIFA_PROPUESTA, r.tarifa with
         | some p, some tf => some (p - tf)
         | _, _ => none)
        ("Baja tarifa") ("Misma tarifa") ("Sube tarifa") ("Sin dato")
    situacion_ipu :=
      if hasDif then
        selectSign r.DIFERENCIA_EN_EL_VALOR
          ("Baja IPU") ("IPU igual") ("Sube IPU") ("Sin dato")
      else "Sin dato" }

/-- The derived columns of one kept row of a given table. -/
def deriveFor (t : RawTable) (r : RawRow) : Row :=
  deriveRow (avaluoEdges t) (avaluoLabels t) (hasAvaluo t) t.hasDIFERENCIA r

/-- The derived table: every kept row with its derived columns, in order. -/
def loadRows (t : RawTable) : List Row := (keptRows t).map (deriveFor t)

/-- Embeds the validation `pd.cut` performs on its arguments at line 110:
the edges must be monotonically increasing. -/
def monotoneEdges : List ℚ → Bool
  | [] => true
  | [_] => true
  | a :: b :: r => decide (a ≤ b) && monotoneEdges (b :: r)

/-- The two argument checks under which the `pd.cut` call of line 110 does
not raise: monotone edges, and exactly one label fewer than edges. -/
def binChecksOk (edges : List ℚ) (labels : List String) : Bool :=
  monotoneEdges edges && (labels.length == edges.length - 1)

/-- Embeds `load_data` (lines 80 to 162): drop the excluded rows, compute
the derived columns.  The result is `none` exactly when the `pd.cut` call
on the valuation column (only taken when some valuation is present) would
raise, so that a `some` result is a run of the script without an error. -/
def load_data (t : RawTable) : Option (List Row) :=
  if hasAvaluo t && !(binChecksOk (avaluoEdges t) (avaluoLabels t)) then none
  else some (loadRows t)

/-- The sidebar filter inputs of lines 179 to 207: three selection lists
and two inclusive ranges, each range a pair of bounds. -/
structure Criteria where
  zona_sel : List String
  estrato_sel : List String
  dest_sel : List String
  aval_rango : ℚ × ℚ
  area_rango : ℚ × ℚ
deriving DecidableEq

/-- Embeds the filter block of lines 210 to 221: five successive boolean
masks.  An `isin` or an order comparison against a missing cell is false. -/
def df_filt (data : List Row) (c : Criteria) : List Row :=
  let d1 := data.filter (fun r => c.zona_sel.contains r.zona)
  let d2 := d1.filter (fun r => c.estrato_sel.contains r.estrato_cat)
  let d3 := d2.filter (fun r =>
    match r.raw.DESTINACION with
    | some d => c.dest_sel.contains d
    | none => false)
  let d4 := d3.filter (fun r =>
    match r.raw.avaluo2024 with
    | some v => decide (c.aval_rango.1 ≤ v) && decide (v ≤ c.aval_rango.2)
    | none => false)
  let d5 := d4.filter (fun r =>
    match r.raw.area_const with
    | some v => decide (c.area_rango.1 ≤ v) && decide (v ≤ c.area_rango.2)
    | none => false)
  d5

/-- The conjunction of the five filter predicates on one row. -/
def keepRow (c : Criteria) (r : Row) : Bool :=
  c.zona_sel.contains r.zona &&
  c.estrato_sel.contains r.estrato_cat &&
  (match r.raw.DESTINACION with
   | some d => c.dest_sel.contains d
   | none => false) &&
  (match r.raw.avaluo2024 with
   | some v => decide (c.aval_rango.1 ≤ v) && decide (v ≤ c.aval_rango.2)
   | none => false) &&
  (match r.raw.area_const with
   | some v => decide (c.area_rango.1 ≤ v) && decide (v ≤ c.area_rango.2)
   | none => false)

/-! Concrete data used to instantiate the theorems below: a three-row table
whose valuations are all tied at 100 (the collapsed-quantile scenario), a
variant with the exclusion column NO present, and filter criteria. -/

/-- A row with every column populated: urban, stratum 3, tied valuation 100,
area exactly on the 35 boundary, tariff rising from 5 to 6. -/
def rawTied1 : RawRow :=
  { NO := none, clase := some 1, ESTRATO := some 3,
    DESTINACION := some ("HABITACIONAL"), avaluo2024 := some 100,
    area_const := some 35, tarifa := some 5, TARIFA_PROPUESTA := some 6,
    VLR_IPU_2025 := none, IPU_LEY_44 := none, DIFERENCIA_EN_EL_VALOR := none }

/-- Rural row with stratum 0 and the same tied valuation. -/
def rawTied2 : RawRow := { rawTied1 with clase := some 2, ESTRATO := some 0 }

/-- Row without class or stratum, tariff falling from 6 to 4. -/
def rawTied3 : RawRow :=
  { rawTied1 with
      clase := none, ESTRATO := none, tarifa := some 6, TARIFA_PROPUESTA := some 4 }

/-- A table without the NO column whose three rows all have valuation 100. -/
def tblTied : RawTable := ⟨false, false, [rawTied1, rawTied2, rawTied3]⟩

/-- A row kept because its NO cell is missing. -/
def rawKeep : RawRow := rawTied1

/-- A row excluded because its NO cell is the literal string NO. -/
def rawExcl : RawRow := { rawTied1 with NO := some ("NO") }

/-- A row kept because its NO cell holds a different value. -/
def rawOther : RawRow := { rawTied1 with NO := some ("SI") }

/-- A table with the NO column present. -/
def tblNO : RawTable := ⟨true, false, [rawKeep, rawExcl, rawOther]⟩

/-- A derived row used as input to the filter theorems. -/
def wRow : Row :=
  { raw := rawTied1, zona := "URBANO", estrato_cat := "3",
    rango_avaluo_2024 := none, rango_area_const := some ("0 - 35 m²"),
    cambio_tarifa := none, situacion_tarifa := "Sube tarifa",
    situacion_ipu := "Sin dato" }

/-- Criteria that keep `wRow`: its zone, stratum and destination are
selected and both of its numeric cells lie inside the ranges. -/
def wCrit : Criteria :=
  { zona_sel := ["URBANO"], estrato_sel := ["3"],
    dest_sel := ["HABITACIONAL"],
    aval_rango := (0, 1000), area_rango := (0, 100) }

/-- The same criteria with an inverted valuation range: minimum 10 above
maximum 0. -/
def wCritBadAval : Criteria := { wCrit with aval_rango := (10, 0) }

/-- The same criteria with an empty stratum selection. -/
def wCritEmptyStrata : Criteria := { wCrit with estrato_sel := [] }

/-- The same criteria with a strictly narrower valuation range. -/
def wCritNarrow : Criteria := { wCrit with aval_rango := (50, 500) }

/-! Helper lemmas. -/

/-- Deduplication only drops elements: the result is a sublist. -/
lemma dedupAdj_sublist : ∀ l : List ℚ, List.Sublist (dedupAdj l) l
  | [] => List.Sublist.refl _
  | [x] => List.Sublist.refl _
  | x :: y :: r => by
    rw [dedupAdj]
    split
    · exact (dedupAdj_sublist (y :: r)).cons x
    · exact (dedupAdj_sublist (y :: r)).cons₂ x

/-- A sorted edge list passes the monotonicity check of `pd.cut`. -/
lemma monotoneEdges_of_sorted :
    ∀ {l : List ℚ}, l.Sorted (fun a b => a ≤ b) → monotoneEdges l = true
  | [], _ => rfl
  | [_], _ => rfl
  | a :: b :: r, h => by
    rw [List.sorted_cons] at h
    simp only [monotoneEdges, Bool.and_eq_true, decide_eq_true_eq]
    exact ⟨h.1 b (by simp), monotoneEdges_of_sorted h.2⟩

/-- The sorting step indeed sorts. -/
lemma sortQ_sorted (l : List ℚ) : (sortQ l).Sorted (fun a b => a ≤ b) :=
  List.sorted_insertionSort _ l

/-- The sorting step permutes the input. -/
lemma sortQ_perm (l : List ℚ) : List.Perm (sortQ l) l :=
  List.perm_insertionSort _ l

/-- The label loop produces one label fewer than there are edges. -/
lemma mkLabels_length (qs : List ℚ) : (mkLabels qs).length = qs.length - 1 := by
  simp [mkLabels]

/-- The deduplicated quantile edges always pass both checks of `pd.cut`:
they are sorted, and the labels were built from the same deduplicated list. -/
lemma binChecksOk_always (t : RawTable) :
    binChecksOk (avaluoEdges t) (avaluoLabels t) = true := by
  have hsorted : (avaluoEdges t).Sorted (fun a b => a ≤ b) :=
    List.Pairwise.sublist (dedupAdj_sublist _) (sortQ_sorted _)
  simp [binChecksOk, monotoneEdges_of_sorted hsorted, avaluoLabels, mkLabels_length]

/-- The embedded `load_data` never raises: every table loads to its derived
rows. -/
lemma load_data_eq (t : RawTable) : load_data t = some (loadRows t) := by
  rw [load_data, binChecksOk_always]
  simp

/-- When every kept row carries the same valuation, the valuation series is
constant. -/
lemma filterMap_avaluo_const {rows : List RawRow} {a : ℚ}
    (h : ∀ r ∈ rows, r.avaluo2024 = some a) :
    rows.filterMap (fun r => r.avaluo2024) = List.replicate rows.length a := by
  induction rows with
  | nil => rfl
  | cons r rs ih =>
    rw [List.filterMap_cons, h r (List.mem_cons_self r rs), List.length_cons,
      List.replicate_succ, ih (fun x hx => h x (List.mem_cons_of_mem r hx))]

/-- Sorting a constant list returns it. -/
lemma sortQ_const {l : List ℚ} {a : ℚ} (h : ∀ x ∈ l, x = a) :
    sortQ l = List.replicate l.length a := by
  have hp := sortQ_perm l
  have hmem : ∀ x ∈ sortQ l, x = a := fun x hx => h x (hp.mem_iff.mp hx)
  have := List.eq_replicate_of_mem hmem
  rwa [hp.length_eq] at this

/-- Any quantile of a nonempty constant list is the constant. -/
lemma quantile_replicate {n : ℕ} (hn : n ≠ 0) (a : ℚ) {q : ℚ}
    (h1 : q ≤ 1) :
    quantile (List.replicate n a) q = some a := by
  have hne : (List.replicate n a).isEmpty = false := by
    cases n with
    | zero => exact absurd rfl hn
    | succ m => rfl
  rw [quantile, hne]
  simp only [Bool.false_eq_true, if_false, List.length_replicate]
  have hn1 : (1 : ℚ) ≤ (n : ℚ) := by exact_mod_cast Nat.one_le_iff_ne_zero.mpr hn
  have hposle : q * ((n : ℚ) - 1) ≤ (n : ℚ) - 1 := by
    nlinarith
  have hfle : (⌊q * ((n : ℚ) - 1)⌋).toNat ≤ n - 1 := by
    have hfloor : ⌊q * ((n : ℚ) - 1)⌋ ≤ (n : ℤ) - 1 := by
      have : ((n : ℤ) - 1 : ℤ) = ⌊((n : ℚ) - 1)⌋ := by
        rw [show ((n : ℚ) - 1) = (((n : ℤ) - 1 : ℤ) : ℚ) by push_cast; ring,
          Int.floor_intCast]
      rw [this]
      exact Int.floor_le_floor hposle
    omega
  have hflt : (⌊q * ((n : ℚ) - 1)⌋).toNat < n := by omega
  have hget1 : (List.replicate n a).getD (⌊q * ((n : ℚ) - 1)⌋).toNat 0 = a := by
    rw [List.getD_eq_getElem?_getD, List.getElem?_replicate, if_pos hflt]
    rfl
  have hget2 : (List.replicate n a).getD ((⌊q * ((n : ℚ) - 1)⌋).toNat + 1) a = a := by
    rw [List.getD_eq_getElem?_getD, List.getElem?_replicate]
    split <;> rfl
  rw [hget1, hget2]
  congr 1
  ring

/-- Deduplicating a nonempty constant list leaves a single element. -/
lemma dedupAdj_replicate (a : ℚ) : ∀ n, dedupAdj (List.replicate (n + 1) a) = [a]
  | 0 => rfl
  | n + 1 => by
    show dedupAdj (a :: a :: List.replicate n a) = [a]
    rw [dedupAdj, if_pos rfl]
    exact dedupAdj_replicate a n

/-- With a single edge, a value equal to that edge is pushed into band one
by `include_lowest` and then masked to NaN, because band one is past the
last edge. -/
lemma cutIdx_single (a : ℚ) : cutIdx [a] a = none := by
  simp [cutIdx]

/-- When every kept row carries the same valuation and some row is kept,
the deduplicated quantile edges collapse to that single valuation. -/
lemma avaluoEdges_const {t : RawTable} {a : ℚ}
    (h : ∀ r ∈ keptRows t, r.avaluo2024 = some a) (hk : keptRows t ≠ []) :
    avaluoEdges t = [a] := by
  have hlen : (keptRows t).length ≠ 0 := fun hc => hk (List.length_eq_zero.mp hc)
  have hv : avaluoValues t = List.replicate (keptRows t).length a := by
    rw [avaluoValues, filterMap_avaluo_const h]
  have hs : sortQ (avaluoValues t) = List.replicate (keptRows t).length a := by
    rw [hv, sortQ_const (fun x hx => (List.eq_of_mem_replicate hx)),
      List.length_replicate]
  have e0 := quantile_replicate hlen a (q := 0) (by norm_num)
  have e1 := quantile_replicate hlen a (q := 0.2) (by norm_num)
  have e2 := quantile_replicate hlen a (q := 0.4) (by norm_num)
  have e3 := quantile_replicate hlen a (q := 0.6) (by norm_num)
  have e4 := quantile_replicate hlen a (q := 0.8) (by norm_num)
  have e5 := quantile_replicate hlen a (q := 1) (by norm_num)
  have hq : qpoints.filterMap (quantile (sortQ (avaluoValues t))) =
      List.replicate 6 a := by
    rw [hs]
    simp [qpoints, List.filterMap_cons, e0, e1, e2, e3, e4, e5, List.replicate]
  rw [avaluoEdges, hq, npUnique,
    sortQ_const (fun x hx => List.eq_of_mem_replicate hx), List.length_replicate]
  exact dedupAdj_replicate a 5

/-- When every kept row carries the same valuation, every derived row gets
a missing valuation band: the single deduplicated edge leaves an empty
label list and `pd.cut` maps the tied value to NaN. -/
lemma rango_avaluo_none_of_const {t : RawTable} {a : ℚ}
    (h : ∀ r ∈ keptRows t, r.avaluo2024 = some a) :
    ∀ r ∈ loadRows t, r.rango_avaluo_2024 = none := by
  intro r hr
  rw [loadRows] at hr
  obtain ⟨raw, hraw, rfl⟩ := List.mem_map.mp hr
  have hk : keptRows t ≠ [] := fun hc => by rw [hc] at hraw; exact absurd hraw (List.not_mem_nil raw)
  have hlen : (keptRows t).length ≠ 0 := fun hc => hk (List.length_eq_zero.mp hc)
  have hedges := avaluoEdges_const h hk
  have hlabels : avaluoLabels t = [] := by
    rw [avaluoLabels, hedges]
    rfl
  have hA : hasAvaluo t = true := by
    rw [hasAvaluo, avaluoValues, filterMap_avaluo_const h]
    cases hc : (keptRows t).length with
    | zero => exact absurd hc hlen
    | succ m => rfl
  have hval := h raw hraw
  show (deriveRow (avaluoEdges t) (avaluoLabels t) (hasAvaluo t) t.hasDIFERENCIA raw).rango_avaluo_2024 = none
  rw [deriveRow]
  simp only [hedges, hlabels, hval, hA, if_true]
  rw [Option.some_bind, cutIdx_single, Option.none_bind]

/-- The digit accumulator never shrinks. -/
lemma toDigitsCore_length_ge (b : ℕ) :
    ∀ (f n : ℕ) (l : List Char), l.length ≤ (Nat.toDigitsCore b f n l).length
  | 0, _, _ => le_refl _
  | f + 1, n, l => by
    rw [Nat.toDigitsCore]
    split
    · simp
    · calc l.length ≤ (Nat.digitChar (n % b) :: l).length := by simp
        _ ≤ _ := toDigitsCore_length_ge b f (n / b) _

/-- With fuel available, the digit accumulator grows by at least one. -/
lemma toDigitsCore_length_succ_ge (b f n : ℕ) (l : List Char) :
    l.length + 1 ≤ (Nat.toDigitsCore b (f + 1) n l).length := by
  rw [Nat.toDigitsCore]
  split
  · simp
  · calc l.length + 1 = (Nat.digitChar (n % b) :: l).length := by simp
      _ ≤ _ := toDigitsCore_length_ge b f (n / b) _

/-- The decimal form of a natural number has at least one character. -/
lemma nat_repr_length_pos (n : ℕ) : 1 ≤ (Nat.repr n).length := by
  show 1 ≤ (Nat.toDigits 10 n).asString.length
  rw [Nat.toDigits]
  exact toDigitsCore_length_succ_ge 10 n n []

/-- The decimal form of a natural number at least ten has at least two
characters. -/
lemma nat_repr_length_ge_two {m : ℕ} (hm : 10 ≤ m) : 2 ≤ (Nat.repr m).length := by
  show 2 ≤ (Nat.toDigits 10 m).asString.length
  rw [Nat.toDigits, Nat.toDigitsCore]
  have hdiv : ¬(m / 10 = 0) := by
    have := Nat.div_pos hm (by norm_num)
    omega
  rw [if_neg hdiv]
  obtain ⟨f, rfl⟩ : ∃ f, m = f + 1 := ⟨m - 1, by omega⟩
  exact toDigitsCore_length_succ_ge 10 f ((f + 1) / 10) [Nat.digitChar ((f + 1) % 10)]

/-- A nonzero natural number never prints as the single digit zero. -/
lemma nat_repr_ne_zero {m : ℕ} (hm : m ≠ 0) : Nat.repr m ≠ "0" := by
  by_cases h10 : m < 10
  · have h1 : 1 ≤ m := Nat.one_le_iff_ne_zero.mpr hm
    interval_cases m <;> decide
  · intro heq
    have hlen := congrArg String.length heq
    have h2 := nat_repr_length_ge_two (by omega : 10 ≤ m)
    rw [hlen] at h2
    exact absurd h2 (by decide)

/-- A nonzero integer never prints as the string zero, so the `replace`
step of line 98 touches exactly the stratum-zero cells. -/
lemma int_toString_ne_zero (n : ℤ) (hn : n ≠ 0) : toString n ≠ "0" := by
  cases n with
  | ofNat m =>
    have hm : m ≠ 0 := by
      intro hc
      exact hn (by rw [hc]; rfl)
    show Nat.repr m ≠ "0"
    exact nat_repr_ne_zero hm
  | negSucc m =>
    show "-" ++ Nat.repr (m + 1) ≠ "0"
    intro heq
    have hlen := congrArg String.length heq
    rw [String.length_append] at hlen
    have hpos := nat_repr_length_pos (m + 1)
    have hml : ("-" : String).length = 1 := by decide
    have h0l : ("0" : String).length = 1 := by decide
    omega

/-- The five successive masks of `df_filt` equal one filter by the
conjunction of the five predicates. -/
lemma df_filt_eq_filter (data : List Row) (c : Criteria) :
    df_filt data c = data.filter (keepRow c) := by
  rw [df_filt]
  rw [List.filter_filter, List.filter_filter, List.filter_filter, List.filter_filter]
  apply List.filter_congr
  intro r _
  rw [keepRow]
  cases c.zona_sel.contains r.zona <;>
    cases c.estrato_sel.contains r.estrato_cat <;>
      cases hd : (match r.raw.DESTINACION with
        | some d => c.dest_sel.contains d
        | none => false) <;>
        cases hv : (match r.raw.avaluo2024 with
          | some v => decide (c.aval_rango.1 ≤ v) && decide (v ≤ c.aval_rango.2)
          | none => false) <;>
          cases ha : (match r.raw.area_const with
            | some v => decide (c.area_rango.1 ≤ v) && decide (v ≤ c.area_rango.2)
            | none => false) <;>
            simp [hd, hv, ha]

/-- The derivation keeps the original cells. -/
lemma deriveFor_raw (t : RawTable) (r : RawRow) : (deriveFor t r).raw = r := rfl

/-- The zona column of a derived row. -/
lemma deriveFor_zona (t : RawTable) (r : RawRow) :
    (deriveFor t r).zona = zonaOf r.clase := rfl

/-- The estrato column of a derived row. -/
lemma deriveFor_estrato (t : RawTable) (r : RawRow) :
    (deriveFor t r).estrato_cat = estratoCatOf r.ESTRATO := rfl

/-- The area band of a derived row. -/
lemma deriveFor_area (t : RawTable) (r : RawRow) :
    (deriveFor t r).rango_area_const = rangoAreaOf r.area_const := rfl

/-- The tariff situation of a derived row. -/
lemma deriveFor_situacion (t : RawTable) (r : RawRow) :
    (deriveFor t r).situacion_tarifa =
      selectSign
        (match r.TARIFA_PROPUESTA, r.tarifa with
         | some p, some tf => some (p - tf)
         | _, _ => none)
        ("Baja tarifa") ("Misma tarifa") ("Sube tarifa") ("Sin dato") := rfl

/-! The claims. -/

/-- C1 (amended): for a dataset in which every kept row has the same
non-missing avaluo2024 value, load still succeeds (and quantile binning
never raises for any table, because edges are deduplicated and the label
list is shortened to match); however the collapsed single edge leaves an
empty label list, so rango_avaluo_2024 is missing for every row instead of
collapsing to a single band covering all rows. -/
theorem C1_tied_valuations (t : RawTable) (a : ℚ)
    (h : ∀ r ∈ keptRows t, r.avaluo2024 = some a) :
    (∀ u : RawTable, load_data u = some (loadRows u)) ∧
    load_data t = some (loadRows t) ∧
    ∀ r ∈ loadRows t, r.rango_avaluo_2024 = none :=
  ⟨load_data_eq, load_data_eq t, rango_avaluo_none_of_const h⟩

/-- Instantiation of the C1 theorem at the three-row table whose
valuations are all 100. -/
theorem C1_tied_valuations_witness :
    (∀ u : RawTable, load_data u = some (loadRows u)) ∧
    load_data tblTied = some (loadRows tblTied) ∧
    ∀ r ∈ loadRows tblTied, r.rango_avaluo_2024 = none :=
  C1_tied_valuations tblTied 100 (by decide)

/-- C1 counterexample: at the concrete table whose three rows all carry
avaluo2024 = 100, loading succeeds but every derived row has a missing
valuation band, so no single band covers the rows. -/
theorem C1_single_band_counterexample :
    load_data tblTied =
      some [deriveFor tblTied rawTied1, deriveFor tblTied rawTied2,
        deriveFor tblTied rawTied3] ∧
    (deriveFor tblTied rawTied1).rango_avaluo_2024 = none ∧
    (deriveFor tblTied rawTied2).rango_avaluo_2024 = none ∧
    (deriveFor tblTied rawTied3).rango_avaluo_2024 = none := by
  have hnone := rango_avaluo_none_of_const (t := tblTied) (a := 100) (by decide)
  exact ⟨load_data_eq tblTied,
    hnone _ (List.mem_map_of_mem _ (by decide)),
    hnone _ (List.mem_map_of_mem _ (by decide)),
    hnone _ (List.mem_map_of_mem _ (by decide))⟩

/-- C2 (amended): a filter whose valuation or area range has its minimum
above its maximum silently yields the empty subset; the filter block has no
error path at all. -/
theorem C2_inverted_range_empty (data : List Row) (c : Criteria) :
    (c.aval_rango.2 < c.aval_rango.1 → df_filt data c = []) ∧
    (c.area_rango.2 < c.area_rango.1 → df_filt data c = []) := by
  constructor
  · intro hlt
    rw [df_filt_eq_filter, List.filter_eq_nil_iff]
    intro r hr
    simp only [keepRow, Bool.and_eq_true]
    rintro ⟨⟨⟨⟨h1, h2⟩, h3⟩, h4⟩, h5⟩
    rcases hv : r.raw.avaluo2024 with _ | v <;> rw [hv] at h4 <;> simp at h4
    rcases h4 with ⟨hlo, hhi⟩
    linarith
  · intro hlt
    rw [df_filt_eq_filter, List.filter_eq_nil_iff]
    intro r hr
    simp only [keepRow, Bool.and_eq_true]
    rintro ⟨⟨⟨⟨h1, h2⟩, h3⟩, h4⟩, h5⟩
    rcases hv : r.raw.area_const with _ | v <;> rw [hv] at h5 <;> simp at h5
    rcases h5 with ⟨hlo, hhi⟩
    linarith

/-- Instantiation of the C2 theorem at a one-row table and the inverted
valuation range. -/
theorem C2_inverted_range_empty_witness : df_filt [wRow] wCritBadAval = [] :=
  (C2_inverted_range_empty [wRow] wCritBadAval).1 (by decide)

/-- C2 counterexample: with the valuation range inverted to minimum 10 and
maximum 0 the filter returns the empty subset as an ordinary value instead
of failing; restoring the range keeps the same row, so the emptiness is
produced silently by the inverted range. -/
theorem C2_no_error_counterexample :
    wCritBadAval.aval_rango.2 < wCritBadAval.aval_rango.1 ∧
    df_filt [wRow] wCritBadAval = [] ∧
    df_filt [wRow] wCrit = [wRow] :=
  ⟨by decide, by decide, by decide⟩

/-- C3: for every derived row whose two tariff cells are present,
situacion_tarifa is Sube tarifa exactly when the proposed tariff exceeds
the current one, Baja tarifa exactly when it is below, Misma tarifa exactly
when they are equal, and the default Sin dato is never produced. -/
theorem C3_situacion_tarifa (t : RawTable) (rows : List Row)
    (h : load_data t = some rows) (r : Row) (hr : r ∈ rows) (p tf : ℚ)
    (hp : r.raw.TARIFA_PROPUESTA = some p) (ht : r.raw.tarifa = some tf) :
    (r.situacion_tarifa = "Sube tarifa" ↔ tf < p) ∧
    (r.situacion_tarifa = "Baja tarifa" ↔ p < tf) ∧
    (r.situacion_tarifa = "Misma tarifa" ↔ p = tf) ∧
    r.situacion_tarifa ≠ "Sin dato" := by
  rw [load_data_eq] at h
  obtain rfl : loadRows t = rows := Option.some.inj h
  obtain ⟨raw, hraw, rfl⟩ := List.mem_map.mp hr
  have hp2 : raw.TARIFA_PROPUESTA = some p := hp
  have ht2 : raw.tarifa = some tf := ht
  rw [deriveFor_situacion, hp2, ht2]
  simp only [selectSign]
  rcases lt_trichotomy p tf with hlt | heq | hgt
  · rw [if_pos (sub_neg.mpr hlt)]
    exact ⟨iff_of_false (by decide) (not_lt.mpr hlt.le),
      iff_of_true rfl hlt,
      iff_of_false (by decide) hlt.ne,
      by decide⟩
  · rw [if_neg (by rw [heq]; simp), if_pos (by rw [heq]; ring)]
    exact ⟨iff_of_false (by decide) (by rw [heq]; exact lt_irrefl tf),
      iff_of_false (by decide) (by rw [heq]; exact lt_irrefl tf),
      iff_of_true rfl heq,
      by decide⟩
  · rw [if_neg (not_lt.mpr (sub_nonneg.mpr hgt.le)),
      if_neg (sub_ne_zero.mpr hgt.ne')]
    exact ⟨iff_of_true rfl hgt,
      iff_of_false (by decide) (not_lt.mpr hgt.le),
      iff_of_false (by decide) hgt.ne',
      by decide⟩

/-- Instantiation of the C3 theorem at the row whose tariff rises from 5
to 6. -/
theorem C3_situacion_tarifa_witness :
    ((deriveFor tblTied rawTied1).situacion_tarifa = "Sube tarifa" ↔ (5 : ℚ) < 6) ∧
    ((deriveFor tblTied rawTied1).situacion_tarifa = "Baja tarifa" ↔ (6 : ℚ) < 5) ∧
    ((deriveFor tblTied rawTied1).situacion_tarifa = "Misma tarifa" ↔ (6 : ℚ) = 5) ∧
    (deriveFor tblTied rawTied1).situacion_tarifa ≠ "Sin dato" :=
  C3_situacion_tarifa tblTied (loadRows tblTied) (load_data_eq tblTied)
    (deriveFor tblTied rawTied1) (List.mem_map_of_mem _ (by decide)) 6 5 rfl rfl

/-- C4: no row of the derived table returned by load, and hence of any
filtered view of it, has its NO column equal to the literal string NO. -/
theorem C4_no_excluded (t : RawTable) (rows : List Row)
    (h : load_data t = some rows) (hNO : t.hasNO = true) :
    (∀ r ∈ rows, r.raw.NO ≠ some ("NO")) ∧
    ∀ c : Criteria, ∀ r ∈ df_filt rows c, r.raw.NO ≠ some ("NO") := by
  rw [load_data_eq] at h
  obtain rfl : loadRows t = rows := Option.some.inj h
  have key : ∀ r ∈ loadRows t, r.raw.NO ≠ some ("NO") := by
    intro r hr
    obtain ⟨raw, hraw, rfl⟩ := List.mem_map.mp hr
    rw [keptRows, if_pos hNO] at hraw
    have hpred := (List.mem_filter.mp hraw).2
    show raw.NO ≠ some ("NO")
    intro hc
    rw [hc] at hpred
    simp at hpred
  refine ⟨key, fun c r hr => key r ?_⟩
  rw [df_filt_eq_filter] at hr
  exact (List.mem_filter.mp hr).1

/-- Instantiation of the C4 theorem at the table carrying the NO column. -/
theorem C4_no_excluded_witness :
    (∀ r ∈ loadRows tblNO, r.raw.NO ≠ some ("NO")) ∧
    ∀ c : Criteria, ∀ r ∈ df_filt (loadRows tblNO) c, r.raw.NO ≠ some ("NO") :=
  C4_no_excluded tblNO (loadRows tblNO) (load_data_eq tblNO) rfl

/-- C5: zona is URBANO when clase is 1, RURAL when clase is 2, and
SIN CLASE for any other or missing clase. -/
theorem C5_zona_mapping (t : RawTable) (rows : List Row)
    (h : load_data t = some rows) (r : Row) (hr : r ∈ rows) :
    (r.raw.clase = some 1 → r.zona = "URBANO") ∧
    (r.raw.clase = some 2 → r.zona = "RURAL") ∧
    (r.raw.clase ≠ some 1 → r.raw.clase ≠ some 2 → r.zona = "SIN CLASE") := by
  rw [load_data_eq] at h
  obtain rfl : loadRows t = rows := Option.some.inj h
  obtain ⟨raw, hraw, rfl⟩ := List.mem_map.mp hr
  rw [deriveFor_zona, deriveFor_raw]
  rcases hcl : raw.clase with _ | n
  · simp [zonaOf]
  · by_cases h1 : n = 1
    · subst h1; simp [zonaOf]
    · by_cases h2 : n = 2
      · subst h2; simp [zonaOf]
      · simp [zonaOf, h1, h2]

/-- Instantiation of the C5 theorem at the urban row. -/
theorem C5_zona_mapping_witness :
    ((deriveFor tblTied rawTied1).raw.clase = some 1 →
      (deriveFor tblTied rawTied1).zona = "URBANO") ∧
    ((deriveFor tblTied rawTied1).raw.clase = some 2 →
      (deriveFor tblTied rawTied1).zona = "RURAL") ∧
    ((deriveFor tblTied rawTied1).raw.clase ≠ some 1 →
      (deriveFor tblTied rawTied1).raw.clase ≠ some 2 →
      (deriveFor tblTied rawTied1).zona = "SIN CLASE") :=
  C5_zona_mapping tblTied (loadRows tblTied) (load_data_eq tblTied)
    (deriveFor tblTied rawTied1) (List.mem_map_of_mem _ (by decide))

/-- C6: estrato_cat is SIN ESTRATO when ESTRATO is missing or zero, and
otherwise the string form of the integer stratum. -/
theorem C6_estrato_cat (t : RawTable) (rows : List Row)
    (h : load_data t = some rows) (r : Row) (hr : r ∈ rows) :
    ((r.raw.ESTRATO = none ∨ r.raw.ESTRATO = some 0) →
      r.estrato_cat = "SIN ESTRATO") ∧
    (∀ n : ℤ, r.raw.ESTRATO = some n → n ≠ 0 → r.estrato_cat = toString n) := by
  rw [load_data_eq] at h
  obtain rfl : loadRows t = rows := Option.some.inj h
  obtain ⟨raw, hraw, rfl⟩ := List.mem_map.mp hr
  rw [deriveFor_estrato, deriveFor_raw]
  constructor
  · rintro (he | he) <;> rw [he] <;> decide
  · intro n hn hn0
    rw [hn]
    simp only [estratoCatOf, Option.getD_some]
    rw [if_neg (int_toString_ne_zero n hn0)]

/-- Instantiation of the C6 theorem at the stratum-three row. -/
theorem C6_estrato_cat_witness :
    (((deriveFor tblTied rawTied1).raw.ESTRATO = none ∨
      (deriveFor tblTied rawTied1).raw.ESTRATO = some 0) →
      (deriveFor tblTied rawTied1).estrato_cat = "SIN ESTRATO") ∧
    (∀ n : ℤ, (deriveFor tblTied rawTied1).raw.ESTRATO = some n → n ≠ 0 →
      (deriveFor tblTied rawTied1).estrato_cat = toString n) :=
  C6_estrato_cat tblTied (loadRows tblTied) (load_data_eq tblTied)
    (deriveFor tblTied rawTied1) (List.mem_map_of_mem _ (by decide))

/-- C7: for every derived row with a present non-negative constructed area,
the area band is exactly one of the four fixed bands, independent of the
dataset, and a value on a boundary falls in the lower-adjacent band. -/
theorem C7_area_bands (t : RawTable) (rows : List Row)
    (h : load_data t = some rows) (r : Row) (hr : r ∈ rows)
    (a : ℚ) (ha : r.raw.area_const = some a) (h0 : 0 ≤ a) :
    (r.rango_area_const = some ("0 - 35 m²") ∨
     r.rango_area_const = some ("35 - 70 m²") ∨
     r.rango_area_const = some ("70 - 120 m²") ∨
     r.rango_area_const = some ("Más de 120 m²")) ∧
    (a ≤ 35 → r.rango_area_const = some ("0 - 35 m²")) ∧
    (35 < a → a ≤ 70 → r.rango_area_const = some ("35 - 70 m²")) ∧
    (70 < a → a ≤ 120 → r.rango_area_const = some ("70 - 120 m²")) ∧
    (120 < a → r.rango_area_const = some ("Más de 120 m²")) := by
  rw [load_data_eq] at h
  obtain rfl : loadRows t = rows := Option.some.inj h
  obtain ⟨raw, hraw, rfl⟩ := List.mem_map.mp hr
  have ha2 : raw.area_const = some a := ha
  have hval : (deriveFor t raw).rango_area_const = rangoAreaOf (some a) := by
    rw [deriveFor_area, ha2]
  rw [hval]
  simp only [rangoAreaOf]
  rw [if_neg (not_lt.mpr h0)]
  by_cases h35 : a ≤ 35
  · rw [if_pos h35]
    exact ⟨Or.inl rfl, fun _ => rfl,
      fun hc _ => False.elim (by linarith),
      fun hc _ => False.elim (by linarith),
      fun hc => False.elim (by linarith)⟩
  · rw [if_neg h35]
    by_cases h70 : a ≤ 70
    · rw [if_pos h70]
      exact ⟨Or.inr (Or.inl rfl),
        fun hc => False.elim (by linarith),
        fun _ _ => rfl,
        fun hc _ => False.elim (by linarith),
        fun hc => False.elim (by linarith)⟩
    · rw [if_neg h70]
      by_cases h120 : a ≤ 120
      · rw [if_pos h120]
        exact ⟨Or.inr (Or.inr (Or.inl rfl)),
          fun hc => False.elim (by linarith),
          fun _ hc => False.elim (by linarith),
          fun _ _ => rfl,
          fun hc => False.elim (by linarith)⟩
      · rw [if_neg h120]
        exact ⟨Or.inr (Or.inr (Or.inr rfl)),
          fun hc => False.elim (by linarith),
          fun _ hc => False.elim (by linarith),
          fun _ hc => False.elim (by linarith),
          fun _ => rfl⟩

/-- Instantiation of the C7 theorem at the row whose area sits exactly on
the 35 boundary. -/
theorem C7_area_bands_witness :
    ((deriveFor tblTied rawTied1).rango_area_const = some ("0 - 35 m²") ∨
     (deriveFor tblTied rawTied1).rango_area_const = some ("35 - 70 m²") ∨
     (deriveFor tblTied rawTied1).rango_area_const = some ("70 - 120 m²") ∨
     (deriveFor tblTied rawTied1).rango_area_const = some ("Más de 120 m²")) ∧
    ((35 : ℚ) ≤ 35 →
      (deriveFor tblTied rawTied1).rango_area_const = some ("0 - 35 m²")) ∧
    ((35 : ℚ) < 35 → (35 : ℚ) ≤ 70 →
      (deriveFor tblTied rawTied1).rango_area_const = some ("35 - 70 m²")) ∧
    ((70 : ℚ) < 35 → (35 : ℚ) ≤ 120 →
      (deriveFor tblTied rawTied1).rango_area_const = some ("70 - 120 m²")) ∧
    ((120 : ℚ) < 35 →
      (deriveFor tblTied rawTied1).rango_area_const = some ("Más de 120 m²")) :=
  C7_area_bands tblTied (loadRows tblTied) (load_data_eq tblTied)
    (deriveFor tblTied rawTied1) (List.mem_map_of_mem _ (by decide)) 35 rfl
    (by decide)

/-- C8: an empty zone, stratum or destination selection empties the
filtered subset regardless of the other criteria, and in general the five
predicates combine by logical AND. -/
theorem C8_and_semantics (data : List Row) (c : Criteria) :
    (c.zona_sel = [] → df_filt data c = []) ∧
    (c.estrato_sel = [] → df_filt data c = []) ∧
    (c.dest_sel = [] → df_filt data c = []) ∧
    df_filt data c = data.filter (keepRow c) := by
  refine ⟨?_, ?_, ?_, df_filt_eq_filter data c⟩
  · intro he
    rw [df_filt_eq_filter, List.filter_eq_nil_iff]
    intro r hr
    simp [keepRow, he]
  · intro he
    rw [df_filt_eq_filter, List.filter_eq_nil_iff]
    intro r hr
    simp [keepRow, he]
  · intro he
    rw [df_filt_eq_filter, List.filter_eq_nil_iff]
    intro r hr
    rcases hD : r.raw.DESTINACION with _ | d <;> simp [keepRow, he, hD]

/-- Instantiation of the C8 theorem at a one-row table and an empty
stratum selection. -/
theorem C8_and_semantics_witness : df_filt [wRow] wCritEmptyStrata = [] :=
  (C8_and_semantics [wRow] wCritEmptyStrata).2.1 rfl

/-- C9: a filtered subset never has more rows than its input, and a
criteria whose valuation range is contained in that of another, all else
equal, never yields a larger subset. -/
theorem C9_monotonicity (data : List Row) (c c2 : Criteria)
    (hz : c2.zona_sel = c.zona_sel) (he : c2.estrato_sel = c.estrato_sel)
    (hd : c2.dest_sel = c.dest_sel) (hA : c2.area_rango = c.area_rango)
    (hlo : c.aval_rango.1 ≤ c2.aval_rango.1)
    (hhi : c2.aval_rango.2 ≤ c.aval_rango.2) :
    (df_filt data c).length ≤ data.length ∧
    (df_filt data c2).length ≤ (df_filt data c).length := by
  rw [df_filt_eq_filter, df_filt_eq_filter]
  refine ⟨List.length_filter_le _ _, ?_⟩
  refine List.Sublist.length_le (List.monotone_filter_right data ?_)
  intro r hkeep
  simp only [keepRow, Bool.and_eq_true] at hkeep ⊢
  obtain ⟨⟨⟨⟨h1, h2⟩, h3⟩, h4⟩, h5⟩ := hkeep
  rw [hz] at h1
  rw [he] at h2
  rw [hd] at h3
  rw [hA] at h5
  refine ⟨⟨⟨⟨h1, h2⟩, h3⟩, ?_⟩, h5⟩
  rcases hv : r.raw.avaluo2024 with _ | v
  · exact absurd h4 (by simp [hv])
  · simp only [hv, Bool.and_eq_true, decide_eq_true_eq] at h4 ⊢
    exact ⟨le_trans hlo h4.1, le_trans h4.2 hhi⟩

/-- Instantiation of the C9 theorem at a one-row table, the base criteria
and their narrowing. -/
theorem C9_monotonicity_witness :
    (df_filt [wRow] wCrit).length ≤ ([wRow] : List Row).length ∧
    (df_filt [wRow] wCritNarrow).length ≤ (df_filt [wRow] wCrit).length :=
  C9_monotonicity [wRow] wCrit wCritNarrow rfl rfl rfl rfl (by decide) (by decide)

/-- C10: when the NO column exists a row is excluded only when its NO cell
is exactly the string NO; a missing or different NO cell keeps the row in
the derived table. -/
theorem C10_retention_rule (t : RawTable) (hNO : t.hasNO = true) (raw : RawRow)
    (hmem : raw ∈ t.rows) :
    load_data t = some (loadRows t) ∧
    (raw.NO ≠ some ("NO") → deriveFor t raw ∈ loadRows t) ∧
    (raw.NO = some ("NO") → raw ∉ keptRows t) := by
  refine ⟨load_data_eq t, ?_, ?_⟩
  · intro hne
    apply List.mem_map_of_mem
    rw [keptRows, if_pos hNO]
    refine List.mem_filter.mpr ⟨hmem, ?_⟩
    simpa using hne
  · intro heq hcon
    rw [keptRows, if_pos hNO] at hcon
    have hpred := (List.mem_filter.mp hcon).2
    rw [heq] at hpred
    simp at hpred

/-- Instantiation of the C10 theorem at the row whose NO cell holds a
value other than NO. -/
theorem C10_retention_rule_witness :
    load_data tblNO = some (loadRows tblNO) ∧
    (rawOther.NO ≠ some ("NO") → deriveFor tblNO rawOther ∈ loadRows tblNO) ∧
    (rawOther.NO = some ("NO") → rawOther ∉ keptRows tblNO) :=
  C10_retention_rule tblNO rfl rawOther (by decide)

end TabSeg
